import Mathlib

/-!
Verification development for the ra-jsonapi-client data provider
(src/index.js): a react-admin data provider that maps abstract CRUD
request kinds to JSON:API HTTP requests and normalizes the responses.

The JavaScript source is shallowly embedded below:
  * JSON values are modelled by `JValue`; JavaScript objects are
    association lists in insertion order, with assignment modelled by
    `objSet` (overwrite in place, else append), mirroring JS object
    key-ordering semantics.
  * The request builder (the `switch (type)` block of the provider) is
    `buildRequest`; mutation of the caller's `params` object
    (`delete attributes.id`, `params["fields"] = ...`) is modelled by
    explicit state passing: the builder returns the post-call `Params`
    alongside the request.
  * Fallible JavaScript (TypeError on dereferencing null/undefined,
    the NotImplementedError default branch) is modelled with
    `Except String`.
  * Query serialization by the external `qs` library is modelled at the
    key/value-pair level by `expandPair`/`stringifyQ`; percent-encoding
    of the final URL, an encoding-level concern of the transport, is
    elided.
  * The response handler (the `.then` callback) is `handleResponse`;
    the HTTP layer is abstracted as a function from requests to
    response bodies, so theorems can quantify over every possible
    server response.
-/

set_option maxHeartbeats 1000000

/-- A JSON value, used for record attributes, ids, request bodies and
response bodies. JavaScript `undefined` is represented by `Option` at
use sites (an absent field), not as a `JValue` constructor. -/
inductive JValue where
  | null : JValue
  | bool : Bool → JValue
  | num : Int → JValue
  | str : String → JValue
  | arr : List JValue → JValue
  | obj : List (String × JValue) → JValue

/-- JavaScript truthiness of a JSON value (`0`, `""`, `null`, `false`
are falsy; objects and arrays are always truthy). -/
def jsTruthy : JValue → Bool
  | .null => false
  | .bool b => b
  | .num n => !(n == 0)
  | .str s => !(s == "")
  | .arr _ => true
  | .obj _ => true

/-- Truthiness of a possibly-absent string (JS `undefined` and `""` are
falsy). Used for the result of `Array.prototype.find` over strings. -/
def jsTruthyStr : Option String → Bool
  | none => false
  | some s => !(s == "")

/-- Property read `v[k]` on a JSON value: a field lookup on objects,
`undefined` (here `none`) on everything else. -/
def jGet (v : JValue) (k : String) : Option JValue :=
  match v with
  | .obj fs => (fs.find? (fun kv => kv.1 == k)).map (fun kv => kv.2)
  | _ => none

/-- Fields of a possibly-absent JSON value when it is an object,
nothing otherwise; used to model spreading `value.attributes`. -/
def jFields : Option JValue → List (String × JValue)
  | some (.obj fs) => fs
  | _ => []

mutual

/-- JavaScript string conversion as used in template literals for URL
interpolation (`${params.id}`): arrays join their elements' conversions
with commas. -/
def jsDisplay : JValue → String
  | .null => "null"
  | .bool b => if b then "true" else "false"
  | .num n => toString n
  | .str s => s
  | .obj _ => "[object Object]"
  | .arr vs => String.intercalate "," (jsDisplayList vs)

/-- Elementwise `jsDisplay` over a list (mutual helper). -/
def jsDisplayList : List JValue → List String
  | [] => []
  | v :: vs => jsDisplay v :: jsDisplayList vs

end

/-- JavaScript object assignment `o[k] = v` on an insertion-ordered
association list: an existing key keeps its position and gets the new
value, a fresh key is appended. -/
def objSet {α : Type} (l : List (String × α)) (k : String) (v : α) : List (String × α) :=
  if l.any (fun p => p.1 == k) then
    l.map (fun p => if p.1 == k then (k, v) else p)
  else
    l ++ [(k, v)]

/-- Javascript `Object.assign(base, extra)`: assign every field of
`extra` onto `base` in order. -/
def objAssign (base extra : List (String × JValue)) : List (String × JValue) :=
  extra.foldl (fun acc kv => objSet acc kv.1 kv.2) base

/-- Splitting a character list at every occurrence of a separator,
keeping empty segments: the behavior of JS `String.prototype.split`
with a one-character separator. Defined by structural recursion so that
it evaluates definitionally. -/
def splitChar (sep : Char) : List Char → List String
  | [] => [""]
  | c :: rest =>
    if c == sep then "" :: splitChar sep rest
    else
      match splitChar sep rest with
      | [] => [String.mk [c]]
      | s :: ss => String.mk (c :: s.data) :: ss

/-- JS `s.split(sep)` for a one-character separator. -/
def jsSplit (s : String) (sep : Char) : List String := splitChar sep s.data

/-- Modelled from the spec: the helpers module (not under src/)
provides `getValue(meta, key)` used by the response handler to read the
configured total meta-field "supporting nested/dotted lookup"
(spec section 4.2): the key is split on dots and each segment is read
off the previous value in turn. -/
def getValue (obj : JValue) (path : String) : Option JValue :=
  (jsSplit path '.').foldl (fun acc k => acc.bind (fun v => jGet v k)) (some obj)

/-- A value appearing in a query object before serialization: either a
scalar (already stringified, as `qs` renders scalars) or a list of
scalars (an id array needing an array format). -/
inductive QueryVal where
  | str : String → QueryVal
  | list : List String → QueryVal
deriving DecidableEq

/-- Serialization of a single query entry by the `qs` library: scalars
render as one `key=value` pair; arrays render according to the array
format (`"indices"` — the qs default, also used for unrecognized
formats —, `"brackets"`, `"repeat"`, or `"comma"`). -/
def expandPair (fmt : String) (kv : String × QueryVal) : List (String × String) :=
  match kv.2 with
  | .str s => [(kv.1, s)]
  | .list vs =>
    if fmt == "brackets" then vs.map (fun v => (kv.1 ++ "[]", v))
    else if fmt == "repeat" then vs.map (fun v => (kv.1, v))
    else if fmt == "comma" then [(kv.1, String.intercalate "," vs)]
    else (vs.enum).map (fun iv => (kv.1 ++ "[" ++ toString iv.1 ++ "]", iv.2))

/-- Serialization of a whole query object by `qs.stringify`: each entry
is expanded per the array format and the pairs are joined with `=` and
`&` (percent-encoding elided, see the module comment). -/
def stringifyQ (fmt : String) (q : List (String × QueryVal)) : String :=
  String.intercalate "&" (((q.map (expandPair fmt)).flatten).map (fun kv => kv.1 ++ "=" ++ kv.2))

/-- Sort parameter of a LIST / GET_MANY_REFERENCE request. -/
structure SortParam where
  field : String
  order : String
deriving DecidableEq

/-- Pagination parameter of a LIST / GET_MANY_REFERENCE request. -/
structure Pagination where
  page : Int
  perPage : Int
deriving DecidableEq

/-- The `params` object passed by react-admin. Different request kinds
read different fields; `fields` is the slot written by
`addFieldsToparams`. -/
structure Params where
  pagination : Pagination
  sort : Option SortParam
  filter : List (String × QueryVal)
  id : JValue
  ids : List String
  data : List (String × JValue)
  fields : List (String × String)
  target : String

/-- The merged client settings (`deepmerge(defaultSettings, userSettings)`
is modelled as a single already-merged record; only the documented
options appear). -/
structure Settings where
  headers : List (String × String)
  updateMethod : String
  arrayFormat : String
  total : Option String
  getManyKey : String

/-- Modelled from the spec: the default-settings module (not under
src/). Spec section 6: "defaults: `headers: {}`, `updateMethod` = a
PATCH-equivalent verb, `arrayFormat` = a repeat-style array
serialization, `total` = unset (use fallback), `getManyKey` = `"id"`". -/
def defaultSettings : Settings :=
  { headers := [], updateMethod := "PATCH", arrayFormat := "repeat",
    total := none, getManyKey := "id" }

/-- A persisted datagrid column description (`{index, source}`) as
stored in the column-preference store. -/
structure Column where
  index : Int
  source : String
deriving DecidableEq

/-- The three parsed column-preference entries for one resource
(`RaStore.preferences.{resource}.datagrid.{columns,omit,availableColumns}`),
each `JSON.parse`d from localStorage, `none` when absent. The source
calls the second entry `omit`, a reserved word in Lean, hence
`omitCols` here. -/
structure Prefs where
  columns : Option (List Int)
  omitCols : Option (List String)
  availableColumns : Option (List Column)

/-- The localStorage column-preference store, keyed by resource name
(the fixed `RaStore.preferences.….datagrid` key scheme is folded into
the lookup). -/
def PrefStore : Type := String → Prefs

/-- Reading `s.source` on each element of the selected list, where an
element may be `undefined` when an explicit column index matched no
available column: `selected.map((s) => s.source)` throws a TypeError at
the first undefined element. -/
def selectedSources : List (Option Column) → Except String (List String)
  | [] => .ok []
  | none :: _ => .error "TypeError: cannot read source of undefined"
  | some c :: rest =>
    match selectedSources rest with
    | .ok l => .ok (c.source :: l)
    | .error e => .error e

/-- First selection step of `addFieldsToparams`: `selected` starts as
`available` (each present column tagged `some`), and when the omit list
is non-null it becomes `available.filter(...)` — a TypeError when
`available` is null, since `.filter` is read off null immediately. -/
def selStep1 (om : Option (List String)) (av : Option (List Column)) :
    Except String (Option (List (Option Column))) :=
  match om with
  | none => .ok (av.map (fun l => l.map some))
  | some oml =>
    match av with
    | none => .error "TypeError: cannot read filter of null"
    | some avl =>
      .ok (some ((avl.filter
        (fun a => !(jsTruthyStr (oml.find? (fun o => a.source == o))))).map some))

/-- Second selection step of `addFieldsToparams`: when the explicit
columns list is non-null, `selected` becomes
`columns.map(c => available.find(a => a.index == c))`. The
`available.find` read happens inside the callback, so a null
`available` only throws when the callback runs, i.e. when the columns
list is non-empty. -/
def selStep2 (cols : Option (List Int)) (av : Option (List Column))
    (sel1 : Option (List (Option Column))) :
    Except String (Option (List (Option Column))) :=
  match cols with
  | none => .ok sel1
  | some cs =>
    match av with
    | some avl => .ok (some (cs.map (fun c => avl.find? (fun a => a.index == c))))
    | none =>
      match cs with
      | [] => .ok (some [])
      | _ :: _ => .error "TypeError: cannot read find of null"

/-- The `addFieldsToparams(resource, params)` helper of src/index.js:
reads the persisted column preferences for the resource, resolves the
selected columns (explicit columns list, else omit list, else all
available — see `selStep1`/`selStep2`), and when a selection resolves
(non-null) writes `params.fields = {apiResource: comma-joined sources}`
where `apiResource` is the last `/`-segment of the resource. Reading
`s.source` throws when an explicit column index matched nothing
(`selectedSources`). -/
def addFieldsToparams (store : PrefStore) (resource : String) (params : Params) :
    Except String Params :=
  match selStep1 (store resource).omitCols (store resource).availableColumns with
  | .error e => .error e
  | .ok sel1 =>
    match selStep2 (store resource).columns (store resource).availableColumns sel1 with
    | .error e => .error e
    | .ok none => .ok params
    | .ok (some sel) =>
      match selectedSources sel with
      | .error e => .error e
      | .ok srcs =>
        .ok { params with fields :=
          [((jsSplit resource '/').getLastD "", String.intercalate "," srcs)] }

/-- The query object a LIST request starts from: pagination entries
followed by one `filter[K]` entry per filter key (assignments on a JS
object, hence `objSet`). -/
def getListQueryBase (params : Params) : List (String × QueryVal) :=
  params.filter.foldl
    (fun q kv => objSet q ("filter[" ++ kv.1 ++ "]") kv.2)
    [("page[number]", .str (toString params.pagination.page)),
     ("page[size]", .str (toString params.pagination.perPage))]

/-- One `fields[F]` assignment per entry of `params.fields`. -/
def addFieldsQuery (params : Params) (q : List (String × QueryVal)) :
    List (String × QueryVal) :=
  params.fields.foldl
    (fun acc kv => objSet acc ("fields[" ++ kv.1 ++ "]") (.str kv.2)) q

/-- The sort assignment: when `params.sort && params.sort.field` is
truthy, `query.sort` is the field name prefixed with `-` unless the
order is exactly `"ASC"`. -/
def addSortParam (params : Params) (q : List (String × QueryVal)) :
    List (String × QueryVal) :=
  match params.sort with
  | none => q
  | some s =>
    if s.field == "" then q
    else objSet q "sort" (.str ((if s.order == "ASC" then "" else "-") ++ s.field))

/-- The full LIST query construction, including the call to
`addFieldsToparams` (which may throw and also mutates `params`): the
resulting query object and the post-call `params` are both returned. -/
def getListQuery (store : PrefStore) (resource : String) (params : Params) :
    Except String (List (String × QueryVal) × Params) :=
  match addFieldsToparams store resource params with
  | .error e => .error e
  | .ok params2 =>
    .ok (addSortParam params2 (addFieldsQuery params2 (getListQueryBase params2)), params2)

/-- The GET_MANY_REFERENCE query: the LIST base (pagination + filters),
then the reference-id assignment `query[filter[target]] = params.id`
(an overwrite when the key already exists), then the sort assignment. -/
def getManyReferenceQuery (params : Params) : List (String × QueryVal) :=
  addSortParam params
    (objSet (getListQueryBase params)
      ("filter[" ++ params.target ++ "]") (.str (jsDisplay params.id)))

/-- An outbound HTTP request as handed to axios: `method := none` means
the request carries no explicit method and the transport defaults to
GET. The body is kept structurally (`JSON.stringify` is injective on
this representation). -/
structure Request where
  url : String
  method : Option String
  headers : List (String × String)
  body : Option JValue

/-- The HTTP method the transport actually uses: axios defaults an
unset method to GET. -/
def resolveMethod (m : Option String) : String := m.getD "GET"

/-- The request kinds handled by the `switch (type)` statement of the
provider. Modelled from the spec: the actions module (not under src/)
defines these constants; their conventional react-admin string values
are used. -/
def supportedTypes : List String :=
  ["GET_LIST", "GET_ONE", "CREATE", "UPDATE", "DELETE", "GET_MANY", "GET_MANY_REFERENCE"]

/-- The outbound half of the provider: the `switch (type)` block of
src/index.js. Returns the request together with the post-call `params`
(UPDATE deletes `params.data.id` in place; GET_LIST writes
`params.fields`); the default branch throws NotImplementedError. -/
def buildRequest (apiUrl : String) (settings : Settings) (store : PrefStore)
    (type resource : String) (params : Params) : Except String (Request × Params) :=
  if type == "GET_LIST" then
    match getListQuery store resource params with
    | .error e => .error e
    | .ok (q, params2) =>
      .ok ({ url := apiUrl ++ "/" ++ resource ++ "?" ++ stringifyQ "indices" q,
             method := none, headers := settings.headers, body := none }, params2)
  else if type == "GET_ONE" then
    .ok ({ url := apiUrl ++ "/" ++ resource ++ "/" ++ jsDisplay params.id,
           method := none, headers := settings.headers, body := none }, params)
  else if type == "CREATE" then
    .ok ({ url := apiUrl ++ "/" ++ resource,
           method := some "POST", headers := settings.headers,
           body := some (.obj [("data",
             .obj [("type", .str resource), ("attributes", .obj params.data)])]) }, params)
  else if type == "UPDATE" then
    let attributes := params.data.filter (fun kv => !(kv.1 == "id"))
    .ok ({ url := apiUrl ++ "/" ++ resource ++ "/" ++ jsDisplay params.id,
           method := some settings.updateMethod, headers := settings.headers,
           body := some (.obj [("data",
             .obj [("id", params.id), ("type", .str resource),
                   ("attributes", .obj attributes)])]) },
         { params with data := attributes })
  else if type == "DELETE" then
    .ok ({ url := apiUrl ++ "/" ++ resource ++ "/" ++ jsDisplay params.id,
           method := some "DELETE", headers := settings.headers, body := none }, params)
  else if type == "GET_MANY" then
    .ok ({ url := apiUrl ++ "/" ++ resource ++ "?" ++
             stringifyQ settings.arrayFormat
               [("filter[" ++ settings.getManyKey ++ "]", .list params.ids)],
           method := none, headers := settings.headers, body := none }, params)
  else if type == "GET_MANY_REFERENCE" then
    .ok ({ url := apiUrl ++ "/" ++ resource ++ "?" ++
             stringifyQ "indices" (getManyReferenceQuery params),
           method := none, headers := settings.headers, body := none }, params)
  else
    .error ("Unsupported Data Provider request type " ++ type)

/-- A JSON:API response body as seen by the `.then` handler:
`response.data.data` and `response.data.meta`. -/
structure RespBody where
  data : JValue
  meta : Option JValue

/-- The normalized result handed back to react-admin: `data`, plus
`total` for collection requests. -/
structure RaResult where
  data : JValue
  total : Option JValue

/-- Normalization of one JSON:API resource object:
`Object.assign({id: value.id}, value.attributes)` — the id first, then
the attributes assigned over it (an attribute named `id` overwrites the
real id, in first position). -/
def normalizeItem (v : JValue) : JValue :=
  .obj (objAssign [("id", (jGet v "id").getD .null)] (jFields (jGet v "attributes")))

/-- Total resolution for collection requests: when the response meta
and the `total` setting are both truthy, the candidate is
`getValue(meta, settings.total)`; the data-array length is used as a
fallback via `total = total || response.data.data.length`, so a falsy
candidate (absent, `0`, `""`, …) also falls back. -/
def resolveTotal (meta : Option JValue) (ts : Option String) (len : Nat) : JValue :=
  let cand : Option JValue :=
    match meta, ts with
    | some m, some k => if jsTruthy m && !(k == "") then getValue m k else none
    | _, _ => none
  match cand with
  | some v => if jsTruthy v then v else .num len
  | none => .num len

/-- The inbound half of the provider: the `.then (response => …)`
callback of src/index.js. Collection kinds map each resource object and
attach the resolved total; single-record kinds flatten
`{id, ...attributes}`; DELETE echoes the request id and ignores the
body; the default branch throws NotImplementedError. -/
def handleResponse (type : String) (settings : Settings) (params : Params)
    (body : RespBody) : Except String RaResult :=
  if type == "GET_LIST" || type == "GET_MANY" || type == "GET_MANY_REFERENCE" then
    match body.data with
    | .arr items =>
      .ok { data := .arr (items.map normalizeItem),
            total := some (resolveTotal body.meta settings.total items.length) }
    | _ => .error "TypeError: response data is not an array"
  else if type == "GET_ONE" || type == "CREATE" || type == "UPDATE" then
    .ok { data := normalizeItem body.data, total := none }
  else if type == "DELETE" then
    .ok { data := .obj [("id", params.id)], total := none }
  else
    .error ("Unsupported Data Provider request type " ++ type)

/-- The whole provider call: build the request, perform the HTTP call
(abstracted as `net`), and normalize the response. An error during
building short-circuits: `net` is never consulted. -/
def dataProvider (apiUrl : String) (settings : Settings) (store : PrefStore)
    (net : Request → RespBody) (type resource : String) (params : Params) :
    Except String RaResult :=
  match buildRequest apiUrl settings store type resource params with
  | .error e => .error e
  | .ok (req, params2) => handleResponse type settings params2 (net req)

/-! Auxiliary lemmas about the embedded JS-object operations. -/

theorem objSet_mem_self {α : Type} (l : List (String × α)) (k : String) (v : α) :
    (k, v) ∈ objSet l k v := by
  unfold objSet
  by_cases h : l.any (fun p => p.1 == k)
  · rw [if_pos h]
    obtain ⟨p, hp, he⟩ := List.any_eq_true.mp h
    exact List.mem_map.mpr ⟨p, hp, by simp [he]⟩
  · rw [if_neg h]
    exact List.mem_append_right _ (by simp)

theorem objSet_mem_of_ne {α : Type} {l : List (String × α)} {p : String × α}
    (k : String) (v : α) (hp : p ∈ l) (hne : p.1 ≠ k) : p ∈ objSet l k v := by
  unfold objSet
  by_cases h : l.any (fun q => q.1 == k)
  · rw [if_pos h]
    refine List.mem_map.mpr ⟨p, hp, ?_⟩
    simp [hne]
  · rw [if_neg h]
    exact List.mem_append_left _ hp

theorem objSet_elim {α : Type} {l : List (String × α)} {k : String} {v : α}
    {p : String × α} (h : p ∈ objSet l k v) : p = (k, v) ∨ p ∈ l := by
  unfold objSet at h
  by_cases hc : l.any (fun q => q.1 == k)
  · rw [if_pos hc] at h
    obtain ⟨q, hq, he⟩ := List.mem_map.mp h
    by_cases hk : q.1 = k
    · simp [hk] at he
      exact Or.inl he.symm
    · simp [hk] at he
      exact Or.inr (he ▸ hq)
  · rw [if_neg hc] at h
    rcases List.mem_append.mp h with h2 | h2
    · exact Or.inr h2
    · exact Or.inl (by simpa using h2)

theorem objSet_eq_append {α : Type} {l : List (String × α)} {k : String} {v : α}
    (h : ∀ p ∈ l, p.1 ≠ k) : objSet l k v = l ++ [(k, v)] := by
  unfold objSet
  rw [if_neg]
  simp only [List.any_eq_true, not_exists, not_and]
  intro p hp
  simp [h p hp]

theorem foldl_objSet_elim {α β : Type} (f : β → String) (g : β → α) (l : List β) :
    ∀ (init : List (String × α)) (p : String × α),
      p ∈ l.foldl (fun q b => objSet q (f b) (g b)) init →
      p ∈ init ∨ ∃ b ∈ l, p.1 = f b := by
  induction l with
  | nil => simp
  | cons a t ih =>
    intro init p h
    rcases ih _ p h with h2 | ⟨b, hb, he⟩
    · rcases objSet_elim h2 with rfl | h3
      · exact Or.inr ⟨a, by simp, rfl⟩
      · exact Or.inl h3
    · exact Or.inr ⟨b, by simp [hb], he⟩

theorem foldl_objSet_mem {α β : Type} (f : β → String) (g : β → α) (l : List β) :
    ∀ (init : List (String × α)) (p : String × α),
      p ∈ init → (∀ b ∈ l, p.1 ≠ f b) →
      p ∈ l.foldl (fun q b => objSet q (f b) (g b)) init := by
  induction l with
  | nil => intro init p hp _; simpa using hp
  | cons a t ih =>
    intro init p hp hne
    exact ih _ p (objSet_mem_of_ne _ _ hp (hne a (by simp)))
      (fun b hb => hne b (by simp [hb]))

/-! Disequality and injectivity facts about the query-key strings. -/

theorem filterKey_inj (a b : String) (h : "filter[" ++ a ++ "]" = "filter[" ++ b ++ "]") :
    a = b := by
  have h2 := congrArg String.data h
  rw [String.data_append, String.data_append, String.data_append, String.data_append] at h2
  rw [List.append_assoc, List.append_assoc] at h2
  have h3 := List.append_cancel_left h2
  have h4 := List.append_cancel_right h3
  cases a; cases b; simp_all

theorem filterKey_ne_pageNumber (t : String) : "filter[" ++ t ++ "]" ≠ "page[number]" := by
  intro h
  have h2 : ("filter[" ++ t ++ "]").data = "page[number]".data := congrArg String.data h
  rw [String.data_append, String.data_append] at h2
  have h3 : 'f' :: ("ilter[".data ++ (t.data ++ "]".data)) = 'p' :: "age[number]".data := h2
  injection h3 with hc _
  exact absurd hc (by decide)

theorem filterKey_ne_pageSize (t : String) : "filter[" ++ t ++ "]" ≠ "page[size]" := by
  intro h
  have h2 : ("filter[" ++ t ++ "]").data = "page[size]".data := congrArg String.data h
  rw [String.data_append, String.data_append] at h2
  have h3 : 'f' :: ("ilter[".data ++ (t.data ++ "]".data)) = 'p' :: "age[size]".data := h2
  injection h3 with hc _
  exact absurd hc (by decide)

theorem longKey_ne_sort (pre t : String) (hp : pre.length = 7) : pre ++ t ++ "]" ≠ "sort" := by
  intro h
  have h2 := congrArg String.length h
  rw [String.length_append, String.length_append] at h2
  have h3 : "]".length = 1 := rfl
  have h4 : "sort".length = 4 := rfl
  omega

/-! Key-shape facts about the built queries. -/

theorem getListQueryBase_elim {params : Params} {p : String × QueryVal}
    (h : p ∈ getListQueryBase params) :
    p.1 = "page[number]" ∨ p.1 = "page[size]" ∨
      ∃ kv ∈ params.filter, p.1 = "filter[" ++ kv.1 ++ "]" := by
  unfold getListQueryBase at h
  rcases foldl_objSet_elim (fun kv => "filter[" ++ kv.1 ++ "]") (fun kv => kv.2)
      params.filter _ p h with h2 | ⟨b, hb, he⟩
  · simp only [List.mem_cons, List.not_mem_nil, or_false] at h2
    rcases h2 with rfl | rfl
    · exact Or.inl rfl
    · exact Or.inr (Or.inl rfl)
  · exact Or.inr (Or.inr ⟨b, hb, he⟩)

theorem getListQueryBase_ne_sort {params : Params} {p : String × QueryVal}
    (h : p ∈ getListQueryBase params) : p.1 ≠ "sort" := by
  rcases getListQueryBase_elim h with h1 | h1 | ⟨kv, _, h1⟩ <;> rw [h1]
  · decide
  · decide
  · exact longKey_ne_sort "filter[" kv.1 rfl

theorem addFieldsQuery_elim {params : Params} {q : List (String × QueryVal)}
    {p : String × QueryVal} (h : p ∈ addFieldsQuery params q) :
    p ∈ q ∨ ∃ k, p.1 = "fields[" ++ k ++ "]" := by
  unfold addFieldsQuery at h
  rcases foldl_objSet_elim (fun kv => "fields[" ++ kv.1 ++ "]")
      (fun kv => QueryVal.str kv.2) params.fields _ p h with h2 | ⟨b, _, he⟩
  · exact Or.inl h2
  · exact Or.inr ⟨b.1, he⟩

/-! Facts about `addSortParam` and `addFieldsToparams`. -/

theorem addSortParam_none {params : Params} (hs : params.sort = none)
    (q : List (String × QueryVal)) : addSortParam params q = q := by
  unfold addSortParam
  rw [hs]

theorem addSortParam_some {params : Params} {s : SortParam} (hs : params.sort = some s)
    (hf : (s.field == "") = false) (q : List (String × QueryVal)) :
    addSortParam params q =
      objSet q "sort" (.str ((if s.order == "ASC" then "" else "-") ++ s.field)) := by
  unfold addSortParam
  rw [hs]
  simp [hf]

theorem addSortParam_some_empty {params : Params} {s : SortParam}
    (hs : params.sort = some s) (hf : (s.field == "") = true)
    (q : List (String × QueryVal)) : addSortParam params q = q := by
  unfold addSortParam
  rw [hs]
  simp [hf]

theorem addFieldsToparams_ok_shape {store : PrefStore} {resource : String}
    {params p2 : Params} (h : addFieldsToparams store resource params = .ok p2) :
    p2 = params ∨ ∃ fl, p2 = { params with fields := fl } := by
  unfold addFieldsToparams at h
  split at h
  · exact absurd h (by simp)
  · split at h
    · exact absurd h (by simp)
    · injection h with h2
      exact Or.inl h2.symm
    · split at h
      · exact absurd h (by simp)
      · injection h with h2
        exact Or.inr ⟨_, h2.symm⟩

theorem addFieldsToparams_sort {store : PrefStore} {resource : String} {params p2 : Params}
    (h : addFieldsToparams store resource params = .ok p2) : p2.sort = params.sort := by
  rcases addFieldsToparams_ok_shape h with rfl | ⟨fl, rfl⟩ <;> rfl

theorem selectedSources_map_some (l : List Column) :
    selectedSources (l.map some) = .ok (l.map (fun c => c.source)) := by
  induction l with
  | nil => rfl
  | cons a t ih => simp [selectedSources, ih]

theorem selectedSources_all_found (cs : List Int) (av : List Column)
    (h : ∀ c ∈ cs, (av.find? (fun a => a.index == c)).isSome = true) :
    selectedSources (cs.map (fun c => av.find? (fun a => a.index == c))) =
      .ok ((cs.filterMap (fun c => av.find? (fun a => a.index == c))).map
        (fun c => c.source)) := by
  induction cs with
  | nil => rfl
  | cons c t ih =>
    obtain ⟨a, ha⟩ := Option.isSome_iff_exists.mp (h c (by simp))
    have ih2 := ih (fun x hx => h x (by simp [hx]))
    simp only [List.map_cons, List.filterMap_cons, ha, selectedSources, ih2]

theorem jsTruthyStr_find (om : List String) (s : String) :
    jsTruthyStr (om.find? (fun o => s == o)) = (om.contains s && !(s == "")) := by
  induction om with
  | nil => rfl
  | cons o t ih =>
    by_cases h : s = o
    · subst h
      simp [List.find?, jsTruthyStr]
    · have hb : (s == o) = false := by simp [h]
      simp [List.find?, hb, ih, List.contains_cons, h]

theorem omitFilter_eq (om : List String) (av : List Column) :
    av.filter (fun a => !(jsTruthyStr (om.find? (fun o => a.source == o)))) =
      av.filter (fun a => !(om.contains a.source) || (a.source == "")) := by
  apply List.filter_congr
  intro a _
  rw [jsTruthyStr_find]
  cases om.contains a.source <;> cases h : (a.source == "") <;> simp_all

/-! Concrete values shared by witnesses and counterexamples. -/

/-- A minimal `params` value for concrete instantiations. -/
def paramsZero : Params :=
  { pagination := ⟨1, 10⟩, sort := none, filter := [], id := .num 1, ids := [],
    data := [], fields := [], target := "" }

/-- A preference store with nothing persisted for any resource. -/
def emptyStore : PrefStore := fun _ => ⟨none, none, none⟩

/-- C7: for every DELETE call, the normalized result equals
`{data: {id: <the id from the request params>}}` for every possible
response body content — the theorem quantifies over the whole transport
oracle `net`, so the server response body is ignored. -/
theorem claim7_delete_echoes_id (apiUrl : String) (settings : Settings) (store : PrefStore)
    (net : Request → RespBody) (resource : String) (params : Params) :
    dataProvider apiUrl settings store net "DELETE" resource params =
      .ok { data := .obj [("id", params.id)], total := none } := rfl

/-- C6: a request kind outside the supported enumeration fails with the
"unsupported request type" error carrying the offending kind string.
The result is the same for every transport oracle `net`, so the error
is raised before any network call and independently of it (the pure
embedding has no other side effects). -/
theorem claim6_unsupported_type (apiUrl : String) (settings : Settings) (store : PrefStore)
    (type resource : String) (params : Params) (h : type ∉ supportedTypes) :
    ∀ net : Request → RespBody,
      dataProvider apiUrl settings store net type resource params =
        .error ("Unsupported Data Provider request type " ++ type) := by
  intro net
  simp only [supportedTypes, List.mem_cons, List.not_mem_nil, or_false, not_or] at h
  obtain ⟨h1, h2, h3, h4, h5, h6, h7⟩ := h
  simp [dataProvider, buildRequest, h1, h2, h3, h4, h5, h6, h7]

/-- Witness for C6 at the concrete unsupported kind "FOO". -/
theorem claim6_unsupported_type_witness :
    dataProvider "http://e" defaultSettings emptyStore (fun _ => ⟨.null, none⟩)
      "FOO" "posts" paramsZero =
      .error "Unsupported Data Provider request type FOO" := by
  simpa using claim6_unsupported_type "http://e" defaultSettings emptyStore "FOO" "posts"
    paramsZero (by decide) (fun _ => ⟨.null, none⟩)

/-- C2: for every UPDATE call, whatever `params.data` contains
(including a set `params.data.id`), the serialized body is
`{data: {id: params.id, type: resource, attributes}}` where the
attributes mapping has no `id` key, and the method is
`settings.updateMethod`. -/
theorem claim2_update_strips_id (apiUrl : String) (settings : Settings) (store : PrefStore)
    (resource : String) (params : Params) :
    ∃ attrs : List (String × JValue),
      buildRequest apiUrl settings store "UPDATE" resource params =
        .ok ({ url := apiUrl ++ "/" ++ resource ++ "/" ++ jsDisplay params.id,
               method := some settings.updateMethod, headers := settings.headers,
               body := some (.obj [("data", .obj [("id", params.id), ("type", .str resource),
                 ("attributes", .obj attrs)])]) },
             { params with data := attrs }) ∧
      ∀ kv ∈ attrs, kv.1 ≠ "id" := by
  refine ⟨params.data.filter (fun kv => !(kv.1 == "id")), rfl, ?_⟩
  intro kv hkv
  have h2 := (List.mem_filter.mp hkv).2
  simpa using h2

/-- Witness for C2 at a concrete UPDATE call whose data contains an
`id` key. -/
theorem claim2_update_strips_id_witness :
    ∃ attrs : List (String × JValue),
      buildRequest "http://e" defaultSettings emptyStore "UPDATE" "posts"
          { paramsZero with id := .num 5, data := [("id", .num 5), ("t", .str "x")] } =
        .ok ({ url := "http://e" ++ "/" ++ "posts" ++ "/" ++ jsDisplay (.num 5),
               method := some defaultSettings.updateMethod,
               headers := defaultSettings.headers,
               body := some (.obj [("data", .obj [("id", .num 5), ("type", .str "posts"),
                 ("attributes", .obj attrs)])]) },
             { paramsZero with id := .num 5, data := attrs }) ∧
      ∀ kv ∈ attrs, kv.1 ≠ "id" :=
  claim2_update_strips_id "http://e" defaultSettings emptyStore "posts"
    { paramsZero with id := .num 5, data := [("id", .num 5), ("t", .str "x")] }

/-- C9: every UPDATE call deletes the `id` key from the caller's
`params.data` (the in-place mutation is modelled by the post-call
`Params` returned by the builder), and the attributes object serialized
into the body is exactly that same post-call data. -/
theorem claim9_update_mutates_params (apiUrl : String) (settings : Settings)
    (store : PrefStore) (resource : String) (params : Params) :
    ∃ pr : Request × Params,
      buildRequest apiUrl settings store "UPDATE" resource params = .ok pr ∧
      pr.2 = { params with data := params.data.filter (fun kv => !(kv.1 == "id")) } ∧
      (∀ kv ∈ pr.2.data, kv.1 ≠ "id") ∧
      pr.1.body = some (.obj [("data", .obj [("id", params.id), ("type", .str resource),
        ("attributes", .obj pr.2.data)])]) := by
  refine ⟨_, rfl, rfl, ?_, rfl⟩
  intro kv hkv
  have h2 := (List.mem_filter.mp hkv).2
  simpa using h2

/-- Witness for C9 at a concrete UPDATE call: after the call, the
caller's data is exactly the filtered list without `id`. -/
theorem claim9_update_mutates_params_witness :
    ∃ pr : Request × Params,
      buildRequest "http://e" defaultSettings emptyStore "UPDATE" "posts"
          { paramsZero with id := .num 5, data := [("id", .num 5), ("t", .str "x")] } = .ok pr ∧
      pr.2 = { paramsZero with id := .num 5, data := [("t", .str "x")] } ∧
      (∀ kv ∈ pr.2.data, kv.1 ≠ "id") ∧
      pr.1.body = some (.obj [("data", .obj [("id", .num 5), ("type", .str "posts"),
        ("attributes", .obj pr.2.data)])]) :=
  claim9_update_mutates_params "http://e" defaultSettings emptyStore "posts"
    { paramsZero with id := .num 5, data := [("id", .num 5), ("t", .str "x")] }

/-- C3: every GET_MANY call builds `{base}/{resource}?{query}` where
the query is the single parameter `filter[settings.getManyKey]` holding
the id list, serialized per `settings.arrayFormat`; no method is set,
so the transport resolves it to GET. -/
theorem claim3_get_many_query (apiUrl : String) (settings : Settings) (store : PrefStore)
    (resource : String) (params : Params) :
    buildRequest apiUrl settings store "GET_MANY" resource params =
      .ok ({ url := apiUrl ++ "/" ++ resource ++ "?" ++
               stringifyQ settings.arrayFormat
                 [("filter[" ++ settings.getManyKey ++ "]", .list params.ids)],
             method := none, headers := settings.headers, body := none }, params) ∧
    resolveMethod none = "GET" := ⟨rfl, rfl⟩

/-- Witness for C3: ids `[1,2,3]` with the default settings
(`getManyKey = "id"`, repeat-style array format) yield
`filter[id]=1&filter[id]=2&filter[id]=3`. -/
theorem claim3_get_many_query_witness :
    buildRequest "http://e" defaultSettings emptyStore "GET_MANY" "posts"
        { paramsZero with ids := ["1", "2", "3"] } =
      .ok ({ url := "http://e/posts?filter[id]=1&filter[id]=2&filter[id]=3",
             method := none, headers := [], body := none },
           { paramsZero with ids := ["1", "2", "3"] }) ∧
    resolveMethod none = "GET" :=
  claim3_get_many_query "http://e" defaultSettings emptyStore "posts"
    { paramsZero with ids := ["1", "2", "3"] }

/-! Resolution cases of `resolveTotal`, matching the spec's wording. -/

theorem resolveTotal_truthy {m : JValue} {k : String} {v : JValue} (len : Nat)
    (hk : k ≠ "") (hm : jsTruthy m = true) (hv : getValue m k = some v)
    (hvt : jsTruthy v = true) : resolveTotal (some m) (some k) len = v := by
  simp [resolveTotal, hm, hv, hvt, hk]

theorem resolveTotal_falsy {m : JValue} {k : String} {v : JValue} (len : Nat)
    (hm : jsTruthy m = true) (hv : getValue m k = some v)
    (hvt : jsTruthy v = false) : resolveTotal (some m) (some k) len = .num len := by
  by_cases hk : k = ""
  · subst hk
    simp [resolveTotal, hm]
  · simp [resolveTotal, hm, hv, hvt, hk]

theorem resolveTotal_no_setting (m : Option JValue) (len : Nat) :
    resolveTotal m none len = .num len := by
  cases m <;> rfl

theorem resolveTotal_no_meta (ts : Option String) (len : Nat) :
    resolveTotal none ts len = .num len := by
  cases ts <;> rfl

/-- C1 counterexample: a collection response with three items and
`meta = {count: 0}` under `settings.total = "count"` normalizes to
`total = 3` (the array-length fallback), not to the present meta value
`0` as the claim requires: the code tests `total || data.length`, so a
present-but-zero meta total is overridden. -/
theorem claim1_total_cex :
    handleResponse "GET_LIST" { defaultSettings with total := some "count" } paramsZero
        { data := .arr [.obj [("id", .num 1), ("attributes", .obj [])],
                        .obj [("id", .num 2), ("attributes", .obj [])],
                        .obj [("id", .num 3), ("attributes", .obj [])]],
          meta := some (.obj [("count", .num 0)]) } =
      .ok { data := .arr [.obj [("id", .num 1)], .obj [("id", .num 2)],
                          .obj [("id", .num 3)]],
            total := some (.num 3) } ∧
    (JValue.num 3 = JValue.num 0 → False) := by
  constructor
  · rfl
  · intro h
    injection h with h2
    exact absurd h2 (by decide)

/-- C1 amended: for every collection request, the total is the
configured meta field's value (read with nested/dotted lookup) when the
meta object is present (truthy), the setting names a nonempty field and
the looked-up value is truthy; a falsy looked-up value (such as a
present `0`), an absent field, an absent/falsy meta or an unset setting
all fall back to the length of the data array. -/
theorem claim1_total_amended (type : String) (settings : Settings) (params : Params)
    (items : List JValue) (m : JValue) (k : String) (v : JValue)
    (htype : type ∈ ["GET_LIST", "GET_MANY", "GET_MANY_REFERENCE"]) :
    (settings.total = some k → k ≠ "" → jsTruthy m = true → getValue m k = some v →
      jsTruthy v = true →
      handleResponse type settings params { data := .arr items, meta := some m } =
        .ok { data := .arr (items.map normalizeItem), total := some v }) ∧
    (settings.total = some k → jsTruthy m = true → getValue m k = some v →
      jsTruthy v = false →
      handleResponse type settings params { data := .arr items, meta := some m } =
        .ok { data := .arr (items.map normalizeItem),
              total := some (.num items.length) }) ∧
    (settings.total = none →
      ∀ mo : Option JValue,
        handleResponse type settings params { data := .arr items, meta := mo } =
          .ok { data := .arr (items.map normalizeItem),
                total := some (.num items.length) }) ∧
    (handleResponse type settings params { data := .arr items, meta := none } =
      .ok { data := .arr (items.map normalizeItem),
            total := some (.num items.length) }) := by
  have hcoll : (type == "GET_LIST" || type == "GET_MANY" ||
      type == "GET_MANY_REFERENCE") = true := by
    simp only [List.mem_cons, List.not_mem_nil, or_false] at htype
    rcases htype with rfl | rfl | rfl <;> decide
  refine ⟨?_, ?_, ?_, ?_⟩
  · intro hts hk hm hv hvt
    simp [handleResponse, hcoll, hts, resolveTotal_truthy items.length hk hm hv hvt]
  · intro hts hm hv hvt
    simp [handleResponse, hcoll, hts, resolveTotal_falsy items.length hm hv hvt]
  · intro hts mo
    simp [handleResponse, hcoll, hts, resolveTotal_no_setting]
  · simp [handleResponse, hcoll, resolveTotal_no_meta]

/-- Witness for C1 amended: `meta = {count: 42}` with
`settings.total = "count"` gives `total = 42`; with the setting unset
the fallback counts the (empty) data array. -/
theorem claim1_total_witness :
    handleResponse "GET_LIST" { defaultSettings with total := some "count" } paramsZero
        { data := .arr [], meta := some (.obj [("count", .num 42)]) } =
      .ok { data := .arr [], total := some (.num 42) } ∧
    handleResponse "GET_MANY" defaultSettings paramsZero
        { data := .arr [], meta := some (.obj [("count", .num 42)]) } =
      .ok { data := .arr [], total := some (.num 0) } := by
  constructor
  · exact (claim1_total_amended "GET_LIST" { defaultSettings with total := some "count" }
      paramsZero [] (.obj [("count", .num 42)]) "count" (.num 42) (by decide)).1
      rfl (by decide) rfl rfl rfl
  · exact (claim1_total_amended "GET_MANY" defaultSettings paramsZero []
      (.obj [("count", .num 42)]) "count" (.num 42) (by decide)).2.2.1
      rfl (some (.obj [("count", .num 42)]))

/-- C8: for every LIST call whose query construction succeeds, a sort
of `{field: "name", order: "DESC"}` puts the parameter `sort=-name`
into the query, an order of `"ASC"` puts `sort=name`, and an absent
sort leaves the query with no `sort` parameter at all. -/
theorem claim8_sort_parameter (store : PrefStore) (resource : String) (params : Params)
    (q : List (String × QueryVal)) (p2 : Params)
    (hq : getListQuery store resource params = .ok (q, p2)) :
    (params.sort = some ⟨"name", "DESC"⟩ → ("sort", QueryVal.str "-name") ∈ q) ∧
    (params.sort = some ⟨"name", "ASC"⟩ → ("sort", QueryVal.str "name") ∈ q) ∧
    (params.sort = none → ∀ v : QueryVal, ("sort", v) ∉ q) := by
  unfold getListQuery at hq
  cases haf : addFieldsToparams store resource params with
  | error e =>
    rw [haf] at hq
    exact absurd hq (by simp)
  | ok pp =>
    rw [haf] at hq
    injection hq with h2
    obtain ⟨rfl, rfl⟩ := Prod.mk.injEq _ _ _ _ ▸ h2
    have hsort := addFieldsToparams_sort haf
    refine ⟨?_, ?_, ?_⟩
    · intro hs
      rw [addSortParam_some (hsort.trans hs) rfl]
      exact objSet_mem_self _ _ _
    · intro hs
      rw [addSortParam_some (hsort.trans hs) rfl]
      exact objSet_mem_self _ _ _
    · intro hs v hv
      rw [addSortParam_none (hsort.trans hs)] at hv
      rcases addFieldsQuery_elim hv with hb | ⟨k, hk⟩
      · exact getListQueryBase_ne_sort hb rfl
      · exact longKey_ne_sort "fields[" k rfl hk.symm

/-- Concrete GET_MANY_REFERENCE params whose target collides with a
filter key: `filter = {author: "x"}`, `target = "author"`, `id = 7`. -/
def gmrCexParams : Params :=
  { pagination := ⟨1, 25⟩, sort := none, filter := [("author", .str "x")],
    id := .num 7, ids := [], data := [], fields := [], target := "author" }

/-- C4 counterexample: with `target = "author"` also a filter key, the
LIST base query carries `filter[author] = "x"`, but the built
GET_MANY_REFERENCE query does not contain that entry any more — the
reference-id assignment overwrote it in place — so the query does not
contain everything a LIST query would, and `filter[target]` is not an
additional entry. -/
theorem claim4_gmr_cex :
    (("filter[author]", QueryVal.str "x") ∈ getListQueryBase gmrCexParams) ∧
    ("filter[author]", QueryVal.str "x") ∉ getManyReferenceQuery gmrCexParams := by
  constructor
  · decide
  · decide

/-- C4 amended: for every GET_MANY_REFERENCE call whose target is not
one of the filter keys, the built query contains everything a LIST
query would (pagination entries, one `filter[K]` entry per filter key,
and the sort entry when a sort field is given) plus the additional
entry `filter[params.target] = params.id`. (When the target equals a
filter key, the reference id overwrites that filter entry in place.) -/
theorem claim4_gmr_query (params : Params)
    (h : ∀ kv ∈ params.filter, kv.1 ≠ params.target) :
    (∀ p ∈ addSortParam params (getListQueryBase params),
      p ∈ getManyReferenceQuery params) ∧
    ("filter[" ++ params.target ++ "]", QueryVal.str (jsDisplay params.id)) ∈
      getManyReferenceQuery params := by
  have hbase : ∀ p ∈ getListQueryBase params,
      p.1 ≠ "filter[" ++ params.target ++ "]" := by
    intro p hp
    rcases getListQueryBase_elim hp with h1 | h1 | ⟨kv, hkv, h1⟩ <;> rw [h1]
    · exact fun he => filterKey_ne_pageNumber params.target he.symm
    · exact fun he => filterKey_ne_pageSize params.target he.symm
    · exact fun he => h kv hkv (filterKey_inj _ _ he)
  unfold getManyReferenceQuery
  rw [objSet_eq_append hbase]
  cases hs : params.sort with
  | none =>
    rw [addSortParam_none hs, addSortParam_none hs]
    exact ⟨fun p hp => List.mem_append_left _ hp,
      List.mem_append_right _ (by simp)⟩
  | some s =>
    by_cases hf : (s.field == "") = true
    · rw [addSortParam_some_empty hs hf, addSortParam_some_empty hs hf]
      exact ⟨fun p hp => List.mem_append_left _ hp,
        List.mem_append_right _ (by simp)⟩
    · have hfb : (s.field == "") = false := by
        cases h2 : (s.field == "") with
        | true => exact absurd h2 hf
        | false => rfl
      rw [addSortParam_some hs hfb, addSortParam_some hs hfb]
      constructor
      · intro p hp
        rcases objSet_elim hp with rfl | hp2
        · exact objSet_mem_self _ _ _
        · exact objSet_mem_of_ne _ _ (List.mem_append_left _ hp2)
            (getListQueryBase_ne_sort hp2)
      · refine objSet_mem_of_ne _ _ (List.mem_append_right _ (by simp)) ?_
        exact longKey_ne_sort "filter[" params.target rfl

/-- Concrete GET_MANY_REFERENCE params with a non-colliding target. -/
def gmrWitnessParams : Params :=
  { pagination := ⟨1, 25⟩, sort := some ⟨"name", "DESC"⟩,
    filter := [("genre", .str "x")], id := .num 7, ids := [], data := [],
    fields := [], target := "author" }

/-- Witness for C4 amended: with `target = "author"` disjoint from the
filter keys, the built query contains both the carried-over sort entry
and the reference-id entry. -/
theorem claim4_gmr_query_witness :
    ("sort", QueryVal.str "-name") ∈ getManyReferenceQuery gmrWitnessParams ∧
    ("filter[author]", QueryVal.str "7") ∈ getManyReferenceQuery gmrWitnessParams := by
  constructor
  · exact (claim4_gmr_query gmrWitnessParams (by decide)).1
      ("sort", QueryVal.str "-name") (by decide)
  · exact (claim4_gmr_query gmrWitnessParams (by decide)).2

/-- C5 counterexample: with an explicit column list `[5]` and a present
(non-null) but empty availableColumns list, the claim's resolution      
yields the empty selection (no available column's index matches) and
hence an empty `fields` parameter; the code instead maps the unmatched
index to `undefined` and throws when reading `.source` off it, so the
LIST call aborts with no query at all. -/
theorem claim5_fields_selection_cex :
    addFieldsToparams (fun _ => ⟨some [5], none, some []⟩) "posts" paramsZero =
      .error "TypeError: cannot read source of undefined" := rfl

/-- C5 amended: field selection for LIST resolves in the claimed order
— explicit column list first (provided every listed index matches an
available column; an unmatched index aborts the call), else the omit
list (a column is kept when its source is not in the omit set, except
that a column with empty source is never omitted, an artifact of the
JS truthiness test on `find`), else all available columns — and the
resolved selection is written as the single `fields` entry keyed by the
last path segment of the resource with comma-joined sources, while an
absent preference state (all three sets null) leaves `params`
untouched. -/
theorem claim5_fields_selection (store : PrefStore) (resource : String) (params : Params)
    (cols : Option (List Int)) (om : Option (List String)) (av : Option (List Column))
    (hstore : store resource = ⟨cols, om, av⟩) :
    (∀ cs avl, cols = some cs → av = some avl →
      (∀ c ∈ cs, (avl.find? (fun a => a.index == c)).isSome = true) →
      addFieldsToparams store resource params = .ok { params with fields :=
        [((jsSplit resource '/').getLastD "",
          String.intercalate ","
            ((cs.filterMap (fun c => avl.find? (fun a => a.index == c))).map
              (fun c => c.source)))] }) ∧
    (∀ oml avl, cols = none → om = some oml → av = some avl →
      addFieldsToparams store resource params = .ok { params with fields :=
        [((jsSplit resource '/').getLastD "",
          String.intercalate ","
            ((avl.filter (fun a => !(oml.contains a.source) || (a.source == ""))).map
              (fun c => c.source)))] }) ∧
    (∀ avl, cols = none → om = none → av = some avl →
      addFieldsToparams store resource params = .ok { params with fields :=
        [((jsSplit resource '/').getLastD "",
          String.intercalate "," (avl.map (fun c => c.source)))] }) ∧
    (cols = none → om = none → av = none →
      addFieldsToparams store resource params = .ok params) := by
  refine ⟨?_, ?_, ?_, ?_⟩
  · intro cs avl hcols hav hall
    subst hcols
    subst hav
    cases om with
    | none =>
      simp [addFieldsToparams, hstore, selStep1, selStep2,
        selectedSources_all_found cs avl hall]
    | some oml =>
      simp [addFieldsToparams, hstore, selStep1, selStep2,
        selectedSources_all_found cs avl hall]
  · intro oml avl hcols hom hav
    subst hcols
    subst hom
    subst hav
    simp [addFieldsToparams, hstore, selStep1, selStep2, selectedSources_map_some,
      omitFilter_eq]
  · intro avl hcols hom hav
    subst hcols
    subst hom
    subst hav
    simp [addFieldsToparams, hstore, selStep1, selStep2, selectedSources_map_some]
  · intro hcols hom hav
    subst hcols
    subst hom
    subst hav
    simp [addFieldsToparams, hstore, selStep1, selStep2]

/-- The spec's own field-selection example store:
`availableColumns = [{index:1, source:"title"}, {index:2, source:"body"}]`,
`omit = ["body"]`, no explicit columns. -/
def omitStore : PrefStore :=
  fun _ => ⟨none, some ["body"], some [⟨1, "title"⟩, ⟨2, "body"⟩]⟩

/-- Witness for C5 amended at the spec's example: the omit branch
selects `title` only. -/
theorem claim5_fields_selection_witness :
    addFieldsToparams omitStore "posts" paramsZero =
      .ok { paramsZero with fields := [("posts", "title")] } := by
  exact (claim5_fields_selection omitStore "posts" paramsZero none (some ["body"])
    (some [⟨1, "title"⟩, ⟨2, "body"⟩]) rfl).2.1 ["body"]
    [⟨1, "title"⟩, ⟨2, "body"⟩] rfl rfl rfl

/-- C10 counterexample: an explicit column list that is present but
empty (`columns = []`) with a null availableColumns entry does NOT
throw — the `available.find` read sits inside the map callback, which
never runs on an empty list — and the call completes, emitting an empty
`fields` value; the claim predicted a throw for every non-null column
list. -/
theorem claim10_null_available_cex :
    addFieldsToparams (fun _ => ⟨some [], none, none⟩) "posts" paramsZero =
      .ok { paramsZero with fields := [("posts", "")] } := rfl

/-- C10 amended: when the preference store holds a non-null omit list,
or a non-EMPTY explicit column list, while availableColumns is null,
field-selection dereferences null and the LIST call fails before any
network request (for every transport oracle); conversely, with a null
availableColumns the selection completes without throwing when the omit
list is absent and the column list is absent or empty. -/
theorem claim10_null_available (apiUrl : String) (settings : Settings) (store : PrefStore)
    (resource : String) (params : Params) (cols : Option (List Int))
    (om : Option (List String)) (hstore : store resource = ⟨cols, om, none⟩) :
    ((om ≠ none ∨ ∃ c cs, cols = some (c :: cs)) →
      ∀ net : Request → RespBody, ∃ e,
        dataProvider apiUrl settings store net "GET_LIST" resource params = .error e) ∧
    (om = none → cols = none ∨ cols = some [] →
      ∃ p2, addFieldsToparams store resource params = .ok p2) := by
  constructor
  · intro hcase net
    have herr : ∃ e, addFieldsToparams store resource params = .error e := by
      rcases hcase with hom | ⟨c, cs, rfl⟩
      · obtain ⟨oml, rfl⟩ := Option.ne_none_iff_exists'.mp hom
        exact ⟨"TypeError: cannot read filter of null",
          by simp [addFieldsToparams, hstore, selStep1]⟩
      · cases om with
        | none =>
          exact ⟨"TypeError: cannot read find of null",
            by simp [addFieldsToparams, hstore, selStep1, selStep2]⟩
        | some oml =>
          exact ⟨"TypeError: cannot read filter of null",
            by simp [addFieldsToparams, hstore, selStep1]⟩
    obtain ⟨e, he⟩ := herr
    exact ⟨e, by simp [dataProvider, buildRequest, getListQuery, he]⟩
  · intro hom hcols
    subst hom
    rcases hcols with rfl | rfl
    · exact ⟨params, by simp [addFieldsToparams, hstore, selStep1, selStep2]⟩
    · exact ⟨{ params with fields := [((jsSplit resource '/').getLastD "",
        String.intercalate "," [])] },
        by simp [addFieldsToparams, hstore, selStep1, selStep2, selectedSources]⟩

/-- Witness for C10 amended: a present omit list with null
availableColumns makes the LIST call fail for a concrete transport
oracle, and the all-null preference state completes. -/
theorem claim10_null_available_witness :
    (∃ e, dataProvider "http://e" defaultSettings (fun _ => ⟨none, some [], none⟩)
      (fun _ => ⟨.null, none⟩) "GET_LIST" "posts" paramsZero = .error e) ∧
    (∃ p2, addFieldsToparams (fun _ => ⟨none, none, none⟩) "posts" paramsZero =
      .ok p2) := by
  constructor
  · exact (claim10_null_available "http://e" defaultSettings
      (fun _ => ⟨none, some [], none⟩) "posts" paramsZero none (some []) rfl).1
      (Or.inl (by simp)) (fun _ => ⟨.null, none⟩)
  · exact (claim10_null_available "http://e" defaultSettings
      (fun _ => ⟨none, none, none⟩) "posts" paramsZero none none rfl).2 rfl (Or.inl rfl)

/-- Witness for C8 at three concrete LIST calls with no persisted
preferences: DESC yields `sort=-name`, ASC yields `sort=name`, and an
absent sort yields a query without a `sort` entry. -/
theorem claim8_sort_parameter_witness :
    ("sort", QueryVal.str "-name") ∈
      [("page[number]", QueryVal.str "1"), ("page[size]", QueryVal.str "10"),
       ("sort", QueryVal.str "-name")] ∧
    ("sort", QueryVal.str "name") ∈
      [("page[number]", QueryVal.str "1"), ("page[size]", QueryVal.str "10"),
       ("sort", QueryVal.str "name")] ∧
    ("sort", QueryVal.str "x") ∉
      [("page[number]", QueryVal.str "1"), ("page[size]", QueryVal.str "10")] := by
  refine ⟨?_, ?_, ?_⟩
  · exact (claim8_sort_parameter emptyStore "posts"
      { paramsZero with sort := some ⟨"name", "DESC"⟩ } _ _ rfl).1 rfl
  · exact (claim8_sort_parameter emptyStore "posts"
      { paramsZero with sort := some ⟨"name", "ASC"⟩ } _ _ rfl).2.1 rfl
  · exact (claim8_sort_parameter emptyStore "posts" paramsZero _ _ rfl).2.2 rfl
      (QueryVal.str "x")
